import Mathlib

/-!
Verification of the external-entity normalization & reconciliation layer of
the ContactCenter_C3UI dashboard (source of truth: `src/app/actions.ts`, plus
the skills page handler `src/app/(app)/skills/page.tsx`).

Shallow embedding conventions:
* TypeScript `string | undefined` fields become `Option String`; JavaScript
  truthiness of a string (`""` and `undefined` are falsy) is `truthyOptStr`.
* `String.prototype.toUpperCase()` is modelled on the ASCII range
  (`jsToUpper`), which covers every literal the source compares against.
* `String.prototype.trim()` is modelled by `jsTrim` (strip leading and
  trailing whitespace characters).
* A JavaScript `Map<string, v>` is modelled as an association list with
  replace-or-append insertion (`mapSet`) and first-match lookup (`mapGet`).
* `Array.prototype.sort` with a `localeCompare` comparator is modelled as a
  stable sort (`List.insertionSort`) by lexicographic `≤` on the compared
  string; ISO timestamps ordered via `new Date(...).getTime()` are modelled
  by their epoch-millisecond value (a `Nat`).
* Functions that `throw` are modelled with `Except` / explicit outcome types.
-/

/-- ASCII model of JavaScript `toUpperCase`. -/
def jsToUpper (s : String) : String :=
  String.mk (s.data.map Char.toUpper)

/-- Is this character stripped by JavaScript `trim`? (ASCII whitespace). -/
def isJsSpace (c : Char) : Bool :=
  c = ' ' || c = '\t' || c = '\n' || c = '\r'

/-- Model of JavaScript `String.prototype.trim`. -/
def jsTrim (s : String) : String :=
  String.mk (((s.data.dropWhile isJsSpace).reverse.dropWhile isJsSpace).reverse)

/-- JavaScript truthiness of a `string | undefined` value: `undefined` and
the empty string are falsy. -/
def truthyOptStr (o : Option String) : Bool :=
  match o with
  | some s => decide (s ≠ "")
  | none => false

/-- JavaScript `Map.prototype.set`: replace the value at an existing key in
place, otherwise append the new binding. -/
def mapSet {β : Type} : List (String × β) → String → β → List (String × β)
  | [], k, v => [(k, v)]
  | p :: rest, k, v => if p.1 = k then (k, v) :: rest else p :: mapSet rest k v

/-- JavaScript `Map.prototype.get` (and object property lookup):
first binding for the key, if any. -/
def mapGet {β : Type} : List (String × β) → String → Option β
  | [], _ => none
  | p :: rest, k => if p.1 = k then some p.2 else mapGet rest k

theorem mapGet_mapSet_self {β : Type} (m : List (String × β)) (k : String) (v : β) :
    mapGet (mapSet m k v) k = some v := by
  induction m with
  | nil => simp [mapSet, mapGet]
  | cons p rest ih =>
    by_cases h : p.1 = k
    · simp [mapSet, mapGet, h]
    · simp [mapSet, mapGet, h, ih]

theorem mapGet_mapSet_ne {β : Type} (m : List (String × β)) (k k' : String) (v : β)
    (h : k' ≠ k) : mapGet (mapSet m k v) k' = mapGet m k' := by
  have hk : ¬k = k' := fun hh => h hh.symm
  induction m with
  | nil => simp [mapSet, mapGet, hk]
  | cons p rest ih =>
    by_cases hp : p.1 = k
    · subst hp
      simp [mapSet, mapGet, hk]
    · by_cases hp' : p.1 = k'
      · simp [mapSet, mapGet, hp, hp', h]
      · simp [mapSet, mapGet, hp, hp', ih]

/-- Stable sort by a string projection; models `Array.prototype.sort` with an
`(a, b) => a.name.localeCompare(b.name)` comparator. -/
def sortByName {α : Type} (f : α → String) (l : List α) : List α :=
  List.insertionSort (fun a b => f a ≤ f b) l

theorem sortByName_pairwise {α : Type} (f : α → String) (l : List α) :
    (sortByName f l).Pairwise (fun a b => f a ≤ f b) := by
  haveI : IsTotal α (fun a b => f a ≤ f b) := ⟨fun a b => le_total (f a) (f b)⟩
  haveI : IsTrans α (fun a b => f a ≤ f b) := ⟨fun _ _ _ h1 h2 => le_trans h1 h2⟩
  exact List.sorted_insertionSort _ l

/-! ## Presence mapping (`mapGenesysToUserStatus`, actions.ts lines 20-31) -/

/-- The `switch (genesysSystemPresence.toUpperCase())` block of
`mapGenesysToUserStatus`, case by case in source order. -/
def switchPresence (u : String) : String :=
  if u = "AVAILABLE" then "Available"
  else if u = "IDLE" then "Available"
  else if u = "BUSY" then "Busy"
  else if u = "MEAL" then "Busy"
  else if u = "TRAINING" then "Busy"
  else if u = "AWAY" then "Away"
  else if u = "BREAK" then "Away"
  else if u = "ON_QUEUE" then "On Queue"
  else if u = "MEETING" then "Meeting"
  else if u = "OFFLINE" then "Offline"
  else "Offline"

/-- `mapGenesysToUserStatus` from actions.ts: absent or empty input (falsy in
JavaScript) yields `Offline`, otherwise the upper-cased value is dispatched
through the switch table. -/
def mapGenesysToUserStatus (genesysSystemPresence : Option String) : String :=
  match genesysSystemPresence with
  | none => "Offline"
  | some p => if p = "" then "Offline" else switchPresence (jsToUpper p)

/-- Modelled from the spec: the fixed presence table of §4.2,
"AVAILABLE/IDLE→Available; BUSY/MEAL/TRAINING→Busy; AWAY/BREAK→Away;
ON_QUEUE→On Queue; MEETING→Meeting; OFFLINE→Offline; any other value maps
to Offline". -/
def presenceForToken (u : String) : String :=
  if u = "AVAILABLE" ∨ u = "IDLE" then "Available"
  else if u = "BUSY" ∨ u = "MEAL" ∨ u = "TRAINING" then "Busy"
  else if u = "AWAY" ∨ u = "BREAK" then "Away"
  else if u = "ON_QUEUE" then "On Queue"
  else if u = "MEETING" then "Meeting"
  else if u = "OFFLINE" then "Offline"
  else "Offline"

/-- Modelled from the spec: `mapPresence` applies the token table to the
upper-cased input and maps an absent value to `Offline`. -/
def mapPresenceSpec (p : Option String) : String :=
  match p with
  | none => "Offline"
  | some s => presenceForToken (jsToUpper s)

theorem switchPresence_eq_presenceForToken (u : String) :
    switchPresence u = presenceForToken u := by
  by_cases h1 : u = "AVAILABLE"
  · simp [switchPresence, presenceForToken, h1]
  by_cases h2 : u = "IDLE"
  · simp [switchPresence, presenceForToken, h1, h2]
  by_cases h3 : u = "BUSY"
  · simp [switchPresence, presenceForToken, h1, h2, h3]
  by_cases h4 : u = "MEAL"
  · simp [switchPresence, presenceForToken, h1, h2, h3, h4]
  by_cases h5 : u = "TRAINING"
  · simp [switchPresence, presenceForToken, h1, h2, h3, h4, h5]
  by_cases h6 : u = "AWAY"
  · simp [switchPresence, presenceForToken, h1, h2, h3, h4, h5, h6]
  by_cases h7 : u = "BREAK"
  · simp [switchPresence, presenceForToken, h1, h2, h3, h4, h5, h6, h7]
  by_cases h8 : u = "ON_QUEUE"
  · simp [switchPresence, presenceForToken, h1, h2, h3, h4, h5, h6, h7, h8]
  by_cases h9 : u = "MEETING"
  · simp [switchPresence, presenceForToken, h1, h2, h3, h4, h5, h6, h7, h8, h9]
  by_cases h10 : u = "OFFLINE"
  · simp [switchPresence, presenceForToken, h1, h2, h3, h4, h5, h6, h7, h8, h9, h10]
  · simp [switchPresence, presenceForToken, h1, h2, h3, h4, h5, h6, h7, h8, h9, h10]

/-- C1 counterexample: the display name "On Queue" does not round-trip
through `mapGenesysToUserStatus` — its upper-casing is "ON QUEUE" (with a
space), which is not the recognized token "ON_QUEUE", so the result is
"Offline", not "On Queue". -/
theorem mapGenesysToUserStatus_onQueue_cex :
    mapGenesysToUserStatus (some "On Queue") = "Offline" ∧
      mapGenesysToUserStatus (some "On Queue") ≠ "On Queue" := by
  constructor
  · decide
  · decide

/-- C1 (amended): `mapGenesysToUserStatus` agrees everywhere with the §4.2
token table applied to the upper-cased input (absent input maps to Offline);
consequently the five display names Available, Busy, Offline, Away and
Meeting round-trip case-insensitively, while any casing of "On Queue" maps
to Offline (the status "On Queue" is produced only by the token "ON_QUEUE"),
IDLE/MEAL/TRAINING/BREAK map to their aliases, and every unrecognized string
maps to Offline. -/
theorem mapGenesysToUserStatus_table :
    (∀ p : Option String, mapGenesysToUserStatus p = mapPresenceSpec p) ∧
      mapGenesysToUserStatus (some "Available") = "Available" ∧
      mapGenesysToUserStatus (some "busy") = "Busy" ∧
      mapGenesysToUserStatus (some "OFFLINE") = "Offline" ∧
      mapGenesysToUserStatus (some "aWaY") = "Away" ∧
      mapGenesysToUserStatus (some "Meeting") = "Meeting" ∧
      mapGenesysToUserStatus (some "On Queue") = "Offline" ∧
      mapGenesysToUserStatus (some "ON_QUEUE") = "On Queue" ∧
      mapGenesysToUserStatus (some "Idle") = "Available" ∧
      mapGenesysToUserStatus none = "Offline" := by
  refine ⟨fun p => ?_, by decide, by decide, by decide, by decide, by decide,
    by decide, by decide, by decide, rfl⟩
  match p with
  | none => rfl
  | some s =>
    by_cases hs : s = ""
    · subst hs
      decide
    · simp [mapGenesysToUserStatus, mapPresenceSpec, hs,
        switchPresence_eq_presenceForToken]

/-! ## DataTable schema inference (`getDataTableDetails`, actions.ts lines 341-426) -/

/-- A JSON-ish value, as far as the schema-inference code inspects one
(`typeof x === 'string'` and `Array.isArray(x)` checks). -/
inductive JVal where
  | jstr : String → JVal
  | jnum : Int → JVal
  | jbool : Bool → JVal
  | jnull : JVal
  | jarr : List JVal → JVal

/-- The shape of a schema property's `type` field as the normalizer inspects
it: a direct string, an object carrying an optional nested `type` value, or
any other value (number, boolean, null, ...), which matches neither test. -/
inductive ColTypeVal where
  | tstr : String → ColTypeVal
  | tobj : Option ColTypeVal → ColTypeVal
  | tother : ColTypeVal

/-- The raw schema blob returned by the external API, restricted to the
fields `getDataTableDetails` reads: `key`, `required` and `properties`
(each property modelled by its optional `type` field, the only field read).
`none` models an absent (`hasOwnProperty` false / undefined) field. -/
structure DtSchema where
  key : Option JVal
  required : Option JVal
  properties : Option (List (String × Option ColTypeVal))

/-- Tier 2 of the primary-key inference as coded: `schema.required` must be
an array holding exactly one string whose trim is non-empty, and the trimmed
string must be a declared property; then the trimmed string is the key. -/
def inferPrimaryKeyTier2 (s : DtSchema) : Option String :=
  match s.required with
  | some (JVal.jarr [JVal.jstr r0]) =>
    if jsTrim r0 ≠ "" then
      match s.properties with
      | some props =>
        if props.any (fun p => p.1 = jsTrim r0) then some (jsTrim r0) else none
      | none => none
    else none
  | _ => none

/-- Primary-key inference of `getDataTableDetails`: tier 1 uses a `key`
field that is a string with non-empty trim; otherwise tier 2
(`inferPrimaryKeyTier2`); otherwise the key is undetermined. -/
def inferPrimaryKey (schema : Option DtSchema) : Option String :=
  match schema with
  | none => none
  | some s =>
    match s.key with
    | some (JVal.jstr k) => if jsTrim k ≠ "" then some (jsTrim k) else inferPrimaryKeyTier2 s
    | some _ => inferPrimaryKeyTier2 s
    | none => inferPrimaryKeyTier2 s

/-- Modelled from the claim's words (C5): tier 2 returns the single required
string itself whenever it literally names a declared property, with no
trimming anywhere. -/
def claimedInferPrimaryKeyTier2 (s : DtSchema) : Option String :=
  match s.required with
  | some (JVal.jarr [JVal.jstr r0]) =>
    match s.properties with
    | some props => if props.any (fun p => p.1 = r0) then some r0 else none
    | none => none
  | _ => none

/-- Modelled from the claim's words (C5): the tiered algorithm exactly as the
claim states it — trimmed `schema.key` when non-empty after trimming,
otherwise the untrimmed single `required` entry when it names a declared
property, otherwise undefined. -/
def claimedInferPrimaryKey (schema : Option DtSchema) : Option String :=
  match schema with
  | none => none
  | some s =>
    match s.key with
    | some (JVal.jstr k) =>
      if jsTrim k ≠ "" then some (jsTrim k) else claimedInferPrimaryKeyTier2 s
    | some _ => claimedInferPrimaryKeyTier2 s
    | none => claimedInferPrimaryKeyTier2 s

/-- The schema separating the code from the claim's description of tier 2:
no `key`, `required = [" foo "]` (whitespace around the name), and a
declared property named `foo`. -/
def c5CexSchema : DtSchema :=
  ⟨none, some (JVal.jarr [JVal.jstr " foo "]), some [("foo", none)]⟩

/-- C5 counterexample: on `c5CexSchema` the code trims the single `required`
entry before the property lookup and returns the trimmed name "foo", while
the claim's algorithm (which matches and returns the entry as written)
yields no key at all. -/
theorem inferPrimaryKey_trim_cex :
    inferPrimaryKey (some c5CexSchema) = some "foo" ∧
      claimedInferPrimaryKey (some c5CexSchema) = none ∧
      inferPrimaryKey (some c5CexSchema) ≠ claimedInferPrimaryKey (some c5CexSchema) :=
  ⟨by decide, by decide, by decide⟩

/-- Modelled from the amended claim (C5): tier 2 additionally trims the
single required entry, requires the trimmed form to be non-empty, looks the
trimmed form up among the declared properties, and returns the trimmed
string. -/
def amendedInferPrimaryKeyTier2 (s : DtSchema) : Option String :=
  match s.required with
  | some (JVal.jarr [JVal.jstr r0]) =>
    if jsTrim r0 = "" then none
    else
      match s.properties with
      | some props =>
        if props.any (fun p => p.1 = jsTrim r0) then some (jsTrim r0) else none
      | none => none
  | _ => none

/-- Modelled from the amended claim (C5): tier 1 as in the claim, tier 2 per
`amendedInferPrimaryKeyTier2`, otherwise undefined. -/
def amendedInferPrimaryKey (schema : Option DtSchema) : Option String :=
  match schema with
  | none => none
  | some s =>
    match s.key with
    | some (JVal.jstr k) =>
      if jsTrim k ≠ "" then some (jsTrim k) else amendedInferPrimaryKeyTier2 s
    | some _ => amendedInferPrimaryKeyTier2 s
    | none => amendedInferPrimaryKeyTier2 s

theorem inferPrimaryKeyTier2_eq_amended (s : DtSchema) :
    inferPrimaryKeyTier2 s = amendedInferPrimaryKeyTier2 s := by
  obtain ⟨k, r, props⟩ := s
  cases r with
  | none => rfl
  | some v =>
    cases v with
    | jstr _ => rfl
    | jnum _ => rfl
    | jbool _ => rfl
    | jnull => rfl
    | jarr l =>
      cases l with
      | nil => rfl
      | cons hd tl =>
        cases tl with
        | cons hd2 tl2 =>
          cases hd <;> rfl
        | nil =>
          cases hd with
          | jstr r0 =>
            by_cases h : jsTrim r0 = "" <;>
              simp [inferPrimaryKeyTier2, amendedInferPrimaryKeyTier2, h]
          | jnum _ => rfl
          | jbool _ => rfl
          | jnull => rfl
          | jarr _ => rfl

/-- C5 (amended): `inferPrimaryKey` follows the tiered algorithm with
trimming in tier 2: a non-empty-after-trim string `key` always wins and is
returned trimmed; otherwise a single-string `required` entry whose trim is
non-empty and names a declared property yields that trimmed string;
otherwise the key is undefined. The claim's two example schemas behave as
stated. -/
theorem inferPrimaryKey_tiered :
    (∀ schema : Option DtSchema, inferPrimaryKey schema = amendedInferPrimaryKey schema) ∧
      inferPrimaryKey (some ⟨none, some (JVal.jarr [JVal.jstr "foo"]), some [("foo", none)]⟩)
        = some "foo" ∧
      inferPrimaryKey (some ⟨none, some (JVal.jarr [JVal.jstr "foo"]), some []⟩) = none := by
  refine ⟨fun schema => ?_, by decide, by decide⟩
  cases schema with
  | none => rfl
  | some s =>
    obtain ⟨k, r, props⟩ := s
    cases k with
    | none => simp [inferPrimaryKey, amendedInferPrimaryKey, inferPrimaryKeyTier2_eq_amended]
    | some v =>
      cases v with
      | jstr kk =>
        by_cases h : jsTrim kk = "" <;>
          simp [inferPrimaryKey, amendedInferPrimaryKey, h, inferPrimaryKeyTier2_eq_amended]
      | jnum _ =>
        simp [inferPrimaryKey, amendedInferPrimaryKey, inferPrimaryKeyTier2_eq_amended]
      | jbool _ =>
        simp [inferPrimaryKey, amendedInferPrimaryKey, inferPrimaryKeyTier2_eq_amended]
      | jnull =>
        simp [inferPrimaryKey, amendedInferPrimaryKey, inferPrimaryKeyTier2_eq_amended]
      | jarr _ =>
        simp [inferPrimaryKey, amendedInferPrimaryKey, inferPrimaryKeyTier2_eq_amended]

/-! ## Column normalization (`getDataTableDetails`, actions.ts lines 390-408) -/

/-- A normalized DataTable column record. -/
structure DataTableColumn where
  name : String
  type : String
  isPrimaryKey : Bool
deriving DecidableEq

/-- Column-type resolution as coded: a direct string is used as is; an
object whose `type` member is a string is unwrapped one level; anything else
falls back to "string". -/
def resolveColumnType (t : Option ColTypeVal) : String :=
  match t with
  | some (ColTypeVal.tstr s) => s
  | some (ColTypeVal.tobj inner) =>
    match inner with
    | some (ColTypeVal.tstr s2) => s2
    | _ => "string"
  | _ => "string"

/-- Column normalization as coded: when the schema carries properties, each
property becomes a column named after it, typed by `resolveColumnType`, and
flagged as primary key exactly when its name equals the determined key. -/
def normalizeColumns (schema : Option DtSchema)
    (determinedPrimaryKeyField : Option String) : List (String × DataTableColumn) :=
  match schema with
  | some s =>
    match s.properties with
    | some props =>
      props.map (fun p =>
        (p.1, ⟨p.1, resolveColumnType p.2, decide (determinedPrimaryKeyField = some p.1)⟩))
    | none => []
  | none => []

/-- Modelled from the spec: resolve a declared type given directly as a
string or nested one level as an object with a string `type`; default to
"string" when neither shape matches. -/
def specResolveColumnType (t : Option ColTypeVal) : String :=
  match t with
  | some (ColTypeVal.tstr s) => s
  | some (ColTypeVal.tobj (some (ColTypeVal.tstr s2))) => s2
  | _ => "string"

/-- Modelled from the spec: for every property in the schema, build the
column with the resolved type, tagging `isPrimaryKey` by name equality with
the inferred key. -/
def specNormalizeColumns (schema : Option DtSchema)
    (determinedPrimaryKeyField : Option String) : List (String × DataTableColumn) :=
  match schema with
  | some s =>
    match s.properties with
    | some props =>
      props.map (fun p =>
        (p.1, ⟨p.1, specResolveColumnType p.2, decide (determinedPrimaryKeyField = some p.1)⟩))
    | none => []
  | none => []

theorem resolveColumnType_eq_spec (t : Option ColTypeVal) :
    resolveColumnType t = specResolveColumnType t := by
  match t with
  | none => rfl
  | some (ColTypeVal.tstr _) => rfl
  | some ColTypeVal.tother => rfl
  | some (ColTypeVal.tobj none) => rfl
  | some (ColTypeVal.tobj (some (ColTypeVal.tstr _))) => rfl
  | some (ColTypeVal.tobj (some (ColTypeVal.tobj _))) => rfl
  | some (ColTypeVal.tobj (some ColTypeVal.tother)) => rfl

/-- The end-to-end schema of the claim: empty-string `key`, a single
required entry "sku", and two typed properties. -/
def c6Schema : DtSchema :=
  ⟨some (JVal.jstr ""), some (JVal.jarr [JVal.jstr "sku"]),
    some [("sku", some (ColTypeVal.tstr "string")), ("qty", some (ColTypeVal.tstr "number"))]⟩

/-- C6: column normalization agrees with the spec's description on every
schema, and the end-to-end scenario holds: `c6Schema` infers primary key
"sku" and normalizes to the stated column map. -/
theorem normalizeColumns_spec :
    (∀ (schema : Option DtSchema) (pk : Option String),
        normalizeColumns schema pk = specNormalizeColumns schema pk) ∧
      inferPrimaryKey (some c6Schema) = some "sku" ∧
      normalizeColumns (some c6Schema) (inferPrimaryKey (some c6Schema)) =
        [("sku", ⟨"sku", "string", true⟩), ("qty", ⟨"qty", "number", false⟩)] := by
  refine ⟨fun schema pk => ?_, by decide, by decide⟩
  cases schema with
  | none => rfl
  | some s =>
    obtain ⟨k, r, props⟩ := s
    cases props with
    | none => rfl
    | some l =>
      simp only [normalizeColumns, specNormalizeColumns]
      exact List.map_congr_left (fun p _ => by rw [resolveColumnType_eq_spec])

/-! ## Row CRUD coordinator (`addDataTableRow`, actions.ts lines 443-469) -/

/-- A JavaScript value stored in a row payload. -/
inductive RowVal where
  | vnull : RowVal
  | vstr : String → RowVal
  | vnum : Int → RowVal
  | vbool : Bool → RowVal
deriving DecidableEq

/-- JavaScript `String(x)` on a row value. -/
def jsString : RowVal → String
  | RowVal.vnull => "null"
  | RowVal.vstr s => s
  | RowVal.vnum n => toString n
  | RowVal.vbool b => cond b "true" "false"

/-- JavaScript object property lookup `rowData[field]`: the value bound to
the field, or undefined (`none`) when the field is absent. -/
def lookupField : List (String × RowVal) → String → Option RowVal
  | [], _ => none
  | p :: rest, k => if p.1 = k then some p.2 else lookupField rest k

/-- Outcome of a row-create attempt, up to the point where the create call
would be issued: either a local pre-flight failure (a thrown error, no
network call), or the create network call with its body. -/
inductive CreateOutcome where
  | preflightError : String → CreateOutcome
  | networkCall : String → List (String × RowVal) → CreateOutcome

/-- `addDataTableRow` as coded, after the schema-details fetch has resolved
the table's primary-key field (`primaryKeyField` of `getDataTableDetails`):
refuse locally when the key field is unresolved, or when the payload's value
at that field is undefined, null, or empty after `String(...).trim()`;
otherwise issue the create call with the full payload. -/
def addDataTableRow (dataTableId : String) (primaryKeyField : Option String)
    (rowData : List (String × RowVal)) : CreateOutcome :=
  match primaryKeyField with
  | none =>
    CreateOutcome.preflightError
      "Cannot add row: Primary key for DataTable is not defined or could not be determined."
  | some pk =>
    match lookupField rowData pk with
    | none =>
      CreateOutcome.preflightError "Cannot add row: Primary key field must have a value."
    | some RowVal.vnull =>
      CreateOutcome.preflightError "Cannot add row: Primary key field must have a value."
    | some v =>
      if jsTrim (jsString v) = "" then
        CreateOutcome.preflightError "Cannot add row: Primary key field must have a value."
      else CreateOutcome.networkCall dataTableId rowData

/-- C4: whenever the primary-key field is unresolved, or the payload's value
at it is absent, null, or empty after trimming, `addDataTableRow` fails with
a local pre-flight error and never reaches the create network call. -/
theorem addDataTableRow_preflight (dataTableId : String) (primaryKeyField : Option String)
    (rowData : List (String × RowVal))
    (h : primaryKeyField = none ∨
      ∃ pk, primaryKeyField = some pk ∧
        (lookupField rowData pk = none ∨ lookupField rowData pk = some RowVal.vnull ∨
          ∃ v, lookupField rowData pk = some v ∧ jsTrim (jsString v) = "")) :
    (∃ msg, addDataTableRow dataTableId primaryKeyField rowData =
        CreateOutcome.preflightError msg) ∧
      ∀ body, addDataTableRow dataTableId primaryKeyField rowData ≠
        CreateOutcome.networkCall dataTableId body := by
  have hpre : ∃ msg, addDataTableRow dataTableId primaryKeyField rowData =
      CreateOutcome.preflightError msg := by
    rcases h with h0 | ⟨pk, hpk, hval⟩
    · subst h0
      exact ⟨_, rfl⟩
    · subst hpk
      rcases hval with hu | hn | ⟨v, hv, ht⟩
      · exact ⟨"Cannot add row: Primary key field must have a value.",
          by simp [addDataTableRow, hu]⟩
      · exact ⟨"Cannot add row: Primary key field must have a value.",
          by simp [addDataTableRow, hn]⟩
      · refine ⟨"Cannot add row: Primary key field must have a value.", ?_⟩
        cases v with
        | vnull => simp [addDataTableRow, hv]
        | vstr s => simp [addDataTableRow, hv, ht]
        | vnum n => simp [addDataTableRow, hv, ht]
        | vbool b => simp [addDataTableRow, hv, ht]
  refine ⟨hpre, ?_⟩
  obtain ⟨msg, hmsg⟩ := hpre
  intro body hbody
  rw [hmsg] at hbody
  exact CreateOutcome.noConfusion hbody

/-- C4 witness: creating a row with primary-key field "sku" and payload
`sku = ""` (plus `qty = 5`) fails pre-flight; the create call is not
issued. -/
theorem addDataTableRow_preflight_witness :
    (∃ msg, addDataTableRow "dt1" (some "sku")
        [("sku", RowVal.vstr ""), ("qty", RowVal.vnum 5)] =
          CreateOutcome.preflightError msg) ∧
      ∀ body, addDataTableRow "dt1" (some "sku")
        [("sku", RowVal.vstr ""), ("qty", RowVal.vnum 5)] ≠
          CreateOutcome.networkCall "dt1" body :=
  addDataTableRow_preflight "dt1" (some "sku")
    [("sku", RowVal.vstr ""), ("qty", RowVal.vnum 5)]
    (Or.inr ⟨"sku", rfl, Or.inr (Or.inr ⟨RowVal.vstr "", by decide, by decide⟩)⟩)

/-! ## Metrics reducer (`findLatestMetric` inside `getEdgeDetails`,
actions.ts lines 713-735) -/

/-- A raw edge metric sample. The ISO timestamp string is modelled by its
epoch-millisecond value (`new Date(t).getTime()`); `none` models an absent
or falsy timestamp field. -/
structure RawMetricPoint where
  metric : Option String
  timestamp : Option Nat
  value : Option Int
  qualifier : Option String
deriving DecidableEq

/-- The sort key used by the reducer: `new Date(m.timestamp).getTime()`
(only ever applied to samples whose timestamp is present). -/
def metricTime (m : RawMetricPoint) : Nat :=
  m.timestamp.getD 0

/-- The filter step of `findLatestMetric`: samples of the named series that
carry a (truthy) timestamp and a defined value. -/
def validSamples (metricName : String) (rawMetrics : List RawMetricPoint) :
    List RawMetricPoint :=
  rawMetrics.filter (fun m =>
    m.metric == some metricName && m.timestamp.isSome && m.value.isSome)

/-- `findLatestMetric` as coded: filter the valid samples of the series,
sort them by timestamp descending, and take the first element (undefined
when no valid sample exists). -/
def findLatestMetric (metricName : String) (rawMetrics : List RawMetricPoint) :
    Option RawMetricPoint :=
  (List.insertionSort (fun a b => metricTime b ≤ metricTime a)
    (validSamples metricName rawMetrics)).head?

theorem insertionSortDesc_head_max {α : Type} (time : α → Nat) (l : List α) :
    match (List.insertionSort (fun a b => time b ≤ time a) l).head? with
    | none => l = []
    | some m => m ∈ l ∧ ∀ x ∈ l, time x ≤ time m := by
  haveI : IsTotal α (fun a b => time b ≤ time a) := ⟨fun a b => le_total (time b) (time a)⟩
  haveI : IsTrans α (fun a b => time b ≤ time a) := ⟨fun _ _ _ h1 h2 => le_trans h2 h1⟩
  have hperm := List.perm_insertionSort (fun a b => time b ≤ time a) l
  have hsort := List.sorted_insertionSort (fun a b => time b ≤ time a) l
  cases hcase : List.insertionSort (fun a b => time b ≤ time a) l with
  | nil =>
    rw [hcase] at hperm
    simpa using hperm.symm.eq_nil
  | cons m t =>
    rw [hcase] at hperm hsort
    simp only [List.head?]
    constructor
    · exact hperm.subset (List.mem_cons_self m t)
    · intro x hx
      rcases List.mem_cons.mp (hperm.mem_iff.mpr hx) with hxm | hxt
      · rw [hxm]
      · exact List.rel_of_sorted_cons hsort x hxt

/-- C7: `findLatestMetric` returns no sample exactly when the series has no
sample carrying both a timestamp and a value (the series is then absent from
the processed-metrics output), and otherwise returns a valid sample of the
series whose timestamp is maximal among all valid samples — in particular,
of two samples with timestamps t1 < t2 it returns the t2 one. -/
theorem findLatestMetric_latest (metricName : String) (rawMetrics : List RawMetricPoint) :
    match findLatestMetric metricName rawMetrics with
    | none => validSamples metricName rawMetrics = []
    | some m => m ∈ validSamples metricName rawMetrics ∧
        ∀ x ∈ validSamples metricName rawMetrics, metricTime x ≤ metricTime m := by
  unfold findLatestMetric
  have h := insertionSortDesc_head_max metricTime (validSamples metricName rawMetrics)
  revert h
  cases (List.insertionSort (fun a b => metricTime b ≤ metricTime a)
      (validSamples metricName rawMetrics)).head? with
  | none => exact fun h => h
  | some m => exact fun h => h

/-! ## Queue list + observations join (`getActiveQueues`, actions.ts
lines 519-603) -/

/-- The UI-ready queue record. The three gauges are optional: the source
initializes them to `undefined` and only a matching observation fills them. -/
structure QueueBasicData where
  id : String
  name : String
  divisionId : Option String
  divisionName : Option String
  interactionsWaiting : Option Nat
  interactionsActive : Option Nat
  availableMembers : Option Nat
deriving DecidableEq

/-- A raw queue entity from the routing API (fields the mapper reads). -/
structure RawQueue where
  id : String
  name : String
  divisionId : Option String
  divisionName : Option String
deriving DecidableEq

/-- The initial mapping of a raw queue: gauges explicitly `undefined`. -/
def initQueue (q : RawQueue) : QueueBasicData :=
  ⟨q.id, q.name, q.divisionId, q.divisionName, none, none, none⟩

/-- One metric data point of an observation result. `statsCount` models
`stats?.count`: the outer option is the presence of the `stats` object, the
inner one the presence of its `count`. -/
structure ObsMetricPoint where
  metric : Option String
  statsCount : Option (Option Nat)
deriving DecidableEq

/-- One observation result: `queueId` models `result.group?.['queueId']`
and `data` the optional metric array. -/
structure ObsResult where
  queueId : Option String
  data : Option (List ObsMetricPoint)
deriving DecidableEq

/-- The per-queue metric overlay accumulated from one observation result;
`none` fields are absent from the partial record and do not override. -/
structure QueueGaugePatch where
  interactionsWaiting : Option Nat
  interactionsActive : Option Nat
  availableMembers : Option Nat
deriving DecidableEq

/-- `metricPoint.stats?.count ?? 0`. -/
def metricPointCount (p : ObsMetricPoint) : Nat :=
  match p.statsCount with
  | some (some n) => n
  | _ => 0

/-- One iteration of the `result.data.forEach` loop: recognized metric names
set the corresponding gauge, anything else is ignored. -/
def applyMetricPoint (g : QueueGaugePatch) (p : ObsMetricPoint) : QueueGaugePatch :=
  if p.metric = some "oWaiting" then ⟨some (metricPointCount p), g.interactionsActive, g.availableMembers⟩
  else if p.metric = some "oInteracting" then ⟨g.interactionsWaiting, some (metricPointCount p), g.availableMembers⟩
  else if p.metric = some "oAvailableUsers" then ⟨g.interactionsWaiting, g.interactionsActive, some (metricPointCount p)⟩
  else g

/-- The gauge patch built from one observation result's data array. -/
def toQueueMetrics (data : List ObsMetricPoint) : QueueGaugePatch :=
  data.foldl applyMetricPoint ⟨none, none, none⟩

/-- One iteration of the `observationResponse.results.forEach` loop: store
the patch under the group's queue id when the id is truthy and a data array
is present. -/
def obsFoldStep (m : List (String × QueueGaugePatch)) (r : ObsResult) :
    List (String × QueueGaugePatch) :=
  match r.queueId, r.data with
  | some qid, some data => if qid ≠ "" then mapSet m qid (toQueueMetrics data) else m
  | _, _ => m

/-- The `metricsMap` of `getActiveQueues`. -/
def buildMetricsMap (results : List ObsResult) : List (String × QueueGaugePatch) :=
  results.foldl obsFoldStep []

/-- The object spread `{ ...queue, ...(metricsMap.get(queue.id) || {}) }`:
fields present on the patch override the queue's, absent fields persist. -/
def overlayGauges (q : QueueBasicData) (patch : Option QueueGaugePatch) : QueueBasicData :=
  match patch with
  | none => q
  | some g =>
    ⟨q.id, q.name, q.divisionId, q.divisionName,
      g.interactionsWaiting.or q.interactionsWaiting,
      g.interactionsActive.or q.interactionsActive,
      g.availableMembers.or q.availableMembers⟩

/-- The join step of `getActiveQueues`: overlay each mapped queue with the
metrics stored under its id, if any. -/
def joinObservations (mappedQueues : List QueueBasicData) (results : List ObsResult) :
    List QueueBasicData :=
  let metricsMap := buildMetricsMap results
  mappedQueues.map (fun queue => overlayGauges queue (mapGet metricsMap queue.id))

/-- `getActiveQueues` as coded, as a function of the two network responses:
a failed queue-list fetch propagates as an error; an empty queue list short
circuits; a failed observations fetch is swallowed (only logged) and the
mapped queues keep their defaults; finally the result is sorted by name. -/
def getActiveQueues (queuesResp : Except String (List RawQueue))
    (obsResp : Except String (List ObsResult)) : Except String (List QueueBasicData) :=
  match queuesResp with
  | Except.error e => Except.error e
  | Except.ok basicQueues =>
    if basicQueues.isEmpty then Except.ok []
    else
      let mappedQueues := basicQueues.map initQueue
      let mapped2 :=
        match obsResp with
        | Except.ok results => joinObservations mappedQueues results
        | Except.error _ => mappedQueues
      Except.ok (sortByName (fun q => q.name) mapped2)

/-- C2 counterexample: a queue whose id matches no observation group key
keeps `undefined` gauges in the record returned by the join of
`getActiveQueues` — the waiting gauge is absent (`none`), not zero. -/
theorem joinObservations_unmatched_cex :
    joinObservations [initQueue ⟨"q1", "Alpha", none, none⟩] [] =
      [⟨"q1", "Alpha", none, none, none, none, none⟩] ∧
      (⟨"q1", "Alpha", none, none, none, none, none⟩ : QueueBasicData).interactionsWaiting
        ≠ some 0 :=
  ⟨rfl, by decide⟩

/-- Does this observation result target the entity id `eid`? It must carry a
truthy group queue id equal to `eid` and a data array. -/
def obsMatches (r : ObsResult) (eid : String) : Bool :=
  match r.queueId, r.data with
  | some q, some _ => decide (q = eid) && decide (q ≠ "")
  | _, _ => false

/-- The gauge patch an observation result resolves to. -/
def obsGauges (r : ObsResult) : QueueGaugePatch :=
  toQueueMetrics (r.data.getD [])

/-- Modelled from the amended claim (C2): the observation result effective
for an entity id — the last matching one, mirroring repeated `Map.set`
under a duplicated group key. -/
def lastObservationFor : List ObsResult → String → Option QueueGaugePatch
  | [], _ => none
  | r :: rs, eid =>
    match lastObservationFor rs eid with
    | some g => some g
    | none => if obsMatches r eid then some (obsGauges r) else none

theorem mapGet_foldl_obs (rs : List ObsResult) :
    ∀ (m : List (String × QueueGaugePatch)) (qid : String),
      mapGet (List.foldl obsFoldStep m rs) qid =
        match lastObservationFor rs qid with
        | some g => some g
        | none => mapGet m qid := by
  induction rs with
  | nil => intro m qid; simp [lastObservationFor]
  | cons r rs ih =>
    intro m qid
    have hstep : List.foldl obsFoldStep m (r :: rs) = List.foldl obsFoldStep (obsFoldStep m r) rs :=
      rfl
    rw [hstep, ih]
    cases hL : lastObservationFor rs qid with
    | some g => simp [lastObservationFor, hL]
    | none =>
      simp only [lastObservationFor, hL]
      obtain ⟨rq, rd⟩ := r
      cases rq with
      | none => simp [obsFoldStep, obsMatches]
      | some q =>
        cases rd with
        | none => simp [obsFoldStep, obsMatches]
        | some d =>
          by_cases hq : q = qid
          · subst hq
            by_cases hne : q = ""
            · subst hne
              simp [obsFoldStep, obsMatches]
            · simp [obsFoldStep, obsMatches, hne, mapGet_mapSet_self, obsGauges]
          · by_cases hne : q = ""
            · subst hne
              simp [obsFoldStep, obsMatches, hq]
            · simp [obsFoldStep, obsMatches, hq, hne,
                mapGet_mapSet_ne _ _ _ _ (fun hh => hq hh.symm)]

/-- Modelled from the amended claim (C2): for every entity, overlay the
resolved metric values of the observation result whose group key equals the
entity's id (if one exists) onto the entity's default (undefined) gauges;
entities with no match are returned unchanged; observation results whose
key matches no entity id are dropped. -/
def joinObservationsSpec (entities : List QueueBasicData) (results : List ObsResult) :
    List QueueBasicData :=
  entities.map (fun e =>
    match lastObservationFor results e.id with
    | some g => overlayGauges e (some g)
    | none => e)

/-- C2 (amended): the join of `getActiveQueues` maps each entity in place —
an entity with a matching observation group key carries exactly the joined
metric values overlaid on its gauges, an entity with no match keeps its
default `undefined` (not zero) gauges, and observation results whose key
matches no entity are dropped without error. -/
theorem joinObservations_overlay (entities : List QueueBasicData) (results : List ObsResult) :
    joinObservations entities results = joinObservationsSpec entities results := by
  unfold joinObservations joinObservationsSpec
  apply List.map_congr_left
  intro e _
  have h := mapGet_foldl_obs results [] e.id
  rw [show List.foldl obsFoldStep [] results = buildMetricsMap results from rfl] at h
  rw [h]
  cases hL : lastObservationFor results e.id with
  | some g => rfl
  | none => rfl

/-- C8: when the observations sub-call fails, `getActiveQueues` still
returns the full queue list, every entity at its default gauges (sorted by
name), and the failure is not propagated as an error. -/
theorem getActiveQueues_metricsFailure (basicQueues : List RawQueue) (e : String) :
    getActiveQueues (Except.ok basicQueues) (Except.error e) =
      Except.ok (sortByName (fun q => q.name) (basicQueues.map initQueue)) := by
  cases basicQueues with
  | nil => rfl
  | cons q qs => rfl

/-! ## Skill reconciliation (`updateUserSkills`, actions.ts lines 258-293,
and the skills page handlers, skills/page.tsx lines 107-136) -/

/-- A fetched user routing skill (post-normalization). -/
structure UserRoutingSkill where
  id : String
  name : String
  proficiency : Int
deriving DecidableEq

/-- One desired-skill entry handed to `updateUserSkills`. -/
structure UserRoutingSkillUpdateItem where
  skillId : String
  proficiency : Int
  state : Option String
deriving DecidableEq

/-- One entry of the wire body of the `putUserRoutingskills` replace call. -/
structure ApiSkillItem where
  id : String
  proficiency : Int
  state : String
deriving DecidableEq

/-- The wire formatting inside `updateUserSkills`: pass the proficiency
through unchanged and default the state to "active". -/
def apiFormattedSkills (skillsToSet : List UserRoutingSkillUpdateItem) : List ApiSkillItem :=
  skillsToSet.map (fun s => ⟨s.skillId, s.proficiency, s.state.getD "active"⟩)

/-- The page's initial working set: every fetched skill enters the
`modifiedSkills` map with its fetched proficiency, unclamped. -/
def initialModifiedSkills (fetchedUserSkills : List UserRoutingSkill) : List (String × Int) :=
  fetchedUserSkills.foldl (fun m s => mapSet m s.id s.proficiency) []

/-- `handleProficiencyChange`: an edited proficiency is clamped to [1,5]
(`Math.max(1, Math.min(5, proficiency))`) as it enters the working set. -/
def handleProficiencyChange (modifiedSkills : List (String × Int)) (skillId : String)
    (proficiency : Int) : List (String × Int) :=
  mapSet modifiedSkills skillId (max 1 (min 5 proficiency))

/-- `handleSaveSkills`: the working set is submitted as is, each entry with
state "active". -/
def handleSaveSkills (modifiedSkills : List (String × Int)) : List UserRoutingSkillUpdateItem :=
  modifiedSkills.map (fun kv => ⟨kv.1, kv.2, some "active"⟩)

/-- C3 counterexample: a fetched skill with out-of-range proficiency 0 that
is never edited flows through the save path and reaches the replace wire
call with proficiency 0 — it is not corrected to 1, so not every submitted
proficiency is clamped into [1,5] before the call is issued. -/
theorem updateUserSkills_noClamp_cex :
    apiFormattedSkills (handleSaveSkills (initialModifiedSkills [⟨"s1", "Alpha", 0⟩])) =
      [⟨"s1", 0, "active"⟩] ∧ ¬(1 ≤ (0 : Int)) :=
  ⟨rfl, by decide⟩

/-- C3 (amended): clamping happens only at the proficiency-edit handler —
an edited value is stored as `max 1 (min 5 p)`, so an edited 0 becomes 1 and
an edited 9 becomes 5, and every edited value lies in [1,5]; the replace
submission itself (`updateUserSkills`) passes every proficiency through to
the wire unchanged, so values that enter the working set otherwise (for
example carried over from the fetched skill set) are not corrected. -/
theorem handleProficiencyChange_clamps (modifiedSkills : List (String × Int))
    (skillId : String) (p : Int) :
    mapGet (handleProficiencyChange modifiedSkills skillId p) skillId =
        some (max 1 (min 5 p)) ∧
      1 ≤ max 1 (min 5 p) ∧ max 1 (min 5 p) ≤ 5 ∧
      max 1 (min 5 (0 : Int)) = 1 ∧ max 1 (min 5 (9 : Int)) = 5 ∧
      ∀ skills : List UserRoutingSkillUpdateItem,
        (apiFormattedSkills skills).map (fun a => a.proficiency) =
          skills.map (fun s => s.proficiency) := by
  refine ⟨mapGet_mapSet_self _ _ _, le_max_left _ _, ?_, by decide, by decide, ?_⟩
  · exact max_le (by decide) (min_le_left _ _)
  · intro skills
    simp [apiFormattedSkills]

/-! ## Conversation primary media type (`searchConversations`, actions.ts
lines 1000-1031) -/

/-- A raw session of an analytics conversation participant. -/
structure RawSession where
  mediaType : Option String
deriving DecidableEq

/-- A raw analytics conversation participant. -/
structure RawParticipant where
  participantId : Option String
  participantName : Option String
  purpose : Option String
  sessions : Option (List RawSession)
deriving DecidableEq

/-- The participant summary built by `searchConversations`:
`mediaType = p.sessions?.[0]?.mediaType`. -/
structure ConversationParticipantSummary where
  participantId : String
  participantName : Option String
  purpose : Option String
  mediaType : Option String
deriving DecidableEq

/-- An analytics conversation, restricted to the fields the media-type
derivation reads. -/
structure AnalyticsConversation where
  conversationId : Option String
  participants : Option (List RawParticipant)
deriving DecidableEq

def toParticipantSummary (p : RawParticipant) : ConversationParticipantSummary :=
  ⟨p.participantId.getD "", p.participantName, p.purpose,
    (p.sessions.getD []).head?.bind (fun s => s.mediaType)⟩

/-- `conv.participants?.[0]?.sessions?.[0]?.mediaType` — the first raw
participant's first session's media type. -/
def firstRawMediaType (conv : AnalyticsConversation) : Option String :=
  (conv.participants.getD []).head?.bind (fun p =>
    (p.sessions.getD []).head?.bind (fun s => s.mediaType))

/-- The primary-media-type derivation as coded: use the first participant
summary's media type when truthy; otherwise, when the raw participant list
is non-empty, fall back to re-reading the first raw participant's first
session's media type; otherwise undefined. -/
def derivePrimaryMediaType (conv : AnalyticsConversation) : Option String :=
  let participants := (conv.participants.getD []).map toParticipantSummary
  match participants.head? with
  | some p0 =>
    if truthyOptStr p0.mediaType then p0.mediaType
    else
      match conv.participants with
      | some (p :: _) => (p.sessions.getD []).head?.bind (fun s => s.mediaType)
      | _ => none
  | none =>
    match conv.participants with
    | some (p :: _) => (p.sessions.getD []).head?.bind (fun s => s.mediaType)
    | _ => none

/-- The conversation separating the code from the claim: the first
participant has no session, the second carries media type "voice". -/
def c9Conv : AnalyticsConversation :=
  ⟨some "c1",
    some [⟨some "p1", none, none, some []⟩,
      ⟨some "p2", none, none, some [⟨some "voice"⟩]⟩]⟩

/-- C9 counterexample: on `c9Conv` the derivation yields no media type even
though another participant of the raw list carries the populated value
"voice" — the fallback never inspects participants beyond the first. -/
theorem derivePrimaryMediaType_firstOnly_cex :
    derivePrimaryMediaType c9Conv = none ∧
      ((c9Conv.participants.getD []).map toParticipantSummary).any
        (fun p => truthyOptStr p.mediaType) = true :=
  ⟨rfl, rfl⟩

/-- C9 (amended): the derived primary media type always equals the first
participant's first session's media type — the fallback branch re-reads the
very same raw path it already consulted, so when the first participant's
summary lacks a truthy media type no other participant is inspected and the
result stays at that same (absent or empty) value. -/
theorem derivePrimaryMediaType_eq_firstRaw (conv : AnalyticsConversation) :
    derivePrimaryMediaType conv = firstRawMediaType conv := by
  obtain ⟨cid, parts⟩ := conv
  cases parts with
  | none => rfl
  | some l =>
    cases l with
    | nil => rfl
    | cons p ps =>
      show (if truthyOptStr (toParticipantSummary p).mediaType
          then (toParticipantSummary p).mediaType
          else (p.sessions.getD []).head?.bind (fun s => s.mediaType)) =
        firstRawMediaType ⟨cid, some (p :: ps)⟩
      by_cases h : truthyOptStr (toParticipantSummary p).mediaType = true
      · simp [h, toParticipantSummary, firstRawMediaType]
      · simp [h, toParticipantSummary, firstRawMediaType]

/-! ## Output ordering of the list-returning operations (C10):
`getAllDivisions` (lines 148-162), `getAllSkills` (224-237),
`getUserSkills` (239-256), `updateUserSkills` (258-293),
`getActiveQueues` (519-603), `getEdgesBasicInfo` (639-679) -/

/-- A raw id/name entity (division or skill definition) as mapped with the
source's non-null assertions. -/
structure RawNamedEntity where
  id : String
  name : String
deriving DecidableEq

/-- A division record. -/
structure Division where
  id : String
  name : String
deriving DecidableEq

/-- A skill definition record. -/
structure SkillDefinition where
  id : String
  name : String
deriving DecidableEq

/-- `getAllDivisions` as a function of the fetched entity list: map then
sort by name. -/
def getAllDivisions (entities : List RawNamedEntity) : List Division :=
  sortByName (fun d => d.name) (entities.map (fun d => ⟨d.id, d.name⟩))

/-- `getAllSkills` as a function of the fetched entity list: map then sort
by name. -/
def getAllSkills (entities : List RawNamedEntity) : List SkillDefinition :=
  sortByName (fun s => s.name) (entities.map (fun s => ⟨s.id, s.name⟩))

/-- A raw user routing skill as returned by the API. -/
structure RawUserSkill where
  id : Option String
  name : Option String
  proficiency : Option Int
deriving DecidableEq

/-- The shared post-processing of `getUserSkills` and `updateUserSkills`:
keep entries with truthy id and name and a defined proficiency, project
them, and sort by name. -/
def normalizeUserSkills (entities : List RawUserSkill) : List UserRoutingSkill :=
  sortByName (fun s => s.name)
    ((entities.filter (fun s =>
        truthyOptStr s.id && truthyOptStr s.name && s.proficiency.isSome)).map
      (fun s => ⟨s.id.getD "", s.name.getD "", s.proficiency.getD 0⟩))

/-- `getUserSkills` as a function of the fetched skill entities. -/
def getUserSkills (responseEntities : List RawUserSkill) : List UserRoutingSkill :=
  normalizeUserSkills responseEntities

/-- `updateUserSkills`'s result mapping, as a function of the replace
call's response entities. -/
def updateUserSkillsResult (responseEntities : List RawUserSkill) : List UserRoutingSkill :=
  normalizeUserSkills responseEntities

/-- The closed edge operational status enumeration. -/
inductive EdgeOperationalStatus where
  | online : EdgeOperationalStatus
  | offline : EdgeOperationalStatus
  | degraded : EdgeOperationalStatus
  | unknown : EdgeOperationalStatus
deriving DecidableEq

/-- `mapEdgeApiStatus` from actions.ts lines 619-637. -/
def mapEdgeApiStatus (apiState : Option String) (apiOnlineStatus : Option String) :
    EdgeOperationalStatus :=
  let state := apiState.map jsToUpper
  let onlineStatus := apiOnlineStatus.map jsToUpper
  if state = some "ACTIVE" then
    if onlineStatus = some "ONLINE" then EdgeOperationalStatus.online
    else if onlineStatus = some "DEGRADED" then EdgeOperationalStatus.degraded
    else if onlineStatus = some "OFFLINE" then EdgeOperationalStatus.offline
    else EdgeOperationalStatus.unknown
  else if state = some "INACTIVE" then EdgeOperationalStatus.offline
  else EdgeOperationalStatus.unknown

/-- A raw edge entity (fields the mapper reads). -/
structure RawEdge where
  id : String
  name : String
  description : Option String
  state : Option String
  onlineStatus : Option String
  edgeGroup : Option (String × String)
  apiVersion : Option String
  make : Option String
  model : Option String
deriving DecidableEq

/-- The UI-ready edge record. -/
structure EdgeBasic where
  id : String
  name : String
  description : Option String
  status : EdgeOperationalStatus
  edgeGroup : Option (String × String)
  apiVersion : Option String
  make : Option String
  model : Option String
deriving DecidableEq

/-- `getEdgesBasicInfo` as a function of the fetched entity list: drop
deleted edges, map (deriving the status), and sort by name. An empty fetch
short-circuits to the empty list. -/
def getEdgesBasicInfo (entities : List RawEdge) : List EdgeBasic :=
  if entities.isEmpty then []
  else
    sortByName (fun e => e.name)
      ((entities.filter (fun e =>
          match e.state with
          | some s => decide (jsToUpper s ≠ "DELETED")
          | none => true)).map
        (fun e => ⟨e.id, e.name, e.description, mapEdgeApiStatus e.state e.onlineStatus,
          e.edgeGroup, e.apiVersion, e.make, e.model⟩))

/-- The list inside an `ok` result, or the default for an error. -/
def exceptD {ε α : Type} (x : Except ε α) (d : α) : α :=
  match x with
  | Except.ok a => a
  | Except.error _ => d

/-- C10: every list-returning read or write-and-reread operation over named
entities returns its records sorted ascending by display name:
`getAllDivisions`, `getAllSkills`, `getUserSkills`, `updateUserSkills`,
`getActiveQueues` and `getEdgesBasicInfo`. -/
theorem listOperations_sortedByName :
    (∀ entities, (getAllDivisions entities).Pairwise (fun a b => a.name ≤ b.name)) ∧
      (∀ entities, (getAllSkills entities).Pairwise (fun a b => a.name ≤ b.name)) ∧
      (∀ entities, (getUserSkills entities).Pairwise (fun a b => a.name ≤ b.name)) ∧
      (∀ entities, (updateUserSkillsResult entities).Pairwise (fun a b => a.name ≤ b.name)) ∧
      (∀ queuesResp obsResp,
        (exceptD (getActiveQueues queuesResp obsResp) []).Pairwise
          (fun a b => a.name ≤ b.name)) ∧
      (∀ entities, (getEdgesBasicInfo entities).Pairwise (fun a b => a.name ≤ b.name)) := by
  refine ⟨fun entities => sortByName_pairwise _ _,
    fun entities => sortByName_pairwise _ _,
    fun entities => sortByName_pairwise _ _,
    fun entities => sortByName_pairwise _ _,
    fun queuesResp obsResp => ?_,
    fun entities => ?_⟩
  · cases queuesResp with
    | error e => exact List.Pairwise.nil
    | ok basicQueues =>
      cases basicQueues with
      | nil => exact List.Pairwise.nil
      | cons q qs =>
        cases obsResp with
        | ok results => exact sortByName_pairwise _ _
        | error e => exact sortByName_pairwise _ _
  · cases entities with
    | nil => exact List.Pairwise.nil
    | cons e es => exact sortByName_pairwise _ _
